import Mathlib

/-!
Shallow embedding of sanity-plugin-external-dam.

Sources embedded here:
- src/src/components/Uploader/uploadMachine.ts  (the xstate v4 upload workflow)
- src/packages/firebase/src/config.ts           (Firebase vendor adapter: uploadFile progress, deleteFile)
- src/packages/aws/getSignedUrl.example.js      (serverless credential-issuance endpoint)

Machine semantics notes (xstate v4, the library the source uses):
- an event received in a state is handled by the first matching candidate
  transition of that state whose cond passes; if the state node has no
  handler for the event, the machine root level handlers apply
  (CANCEL_INPUT, SELECT_FILE); otherwise the event is discarded and the
  configuration is unchanged.
- a transition with actions but no target is internal: the state stays.
- assign actions merge the produced partial object into the existing
  context via Object.assign, so keys absent from the produced object keep
  their previous values. In particular RESET_UPLOAD produces
  a spread of INITIAL_CONTEXT, whose only own keys are retries and
  vendorUploadProgress, so all other context fields survive the merge.
- invoked services report back through dedicated completion events, which
  we model as extra Event constructors (doneExtractVideo, errorExtractVideo,
  doneExtractAudio, errorExtractAudio, doneSanity, errorSanity); the
  Firebase upload service communicates through the ordinary
  VENDOR_PROGRESS / VENDOR_DONE / VENDOR_ERROR events.
-/

/-- JavaScript String.prototype.includes: substring containment test.
Used by the SELECT_FILE guards (file.type.includes) and by the audio
extraction precondition in uploadMachine.ts. -/
def strIncludes (s pat : String) : Bool :=
  (List.range (s.data.length + 1)).any fun i => pat.data.isPrefixOf (s.data.drop i)

/-- A browser File as far as the machine inspects it: its MIME type string. -/
structure FileV where
  type : String
deriving DecidableEq, Repr

/-- Waveform data produced by getWaveformData (opaque to the machine). -/
structure WaveformData where
  peaks : List Int
deriving DecidableEq, Repr

/-- Video dimensions captured from the video element. -/
structure Dimensions where
  width : Nat
  height : Nat
deriving DecidableEq, Repr

/-- AudioMetadata from src/src/types: duration read on loadedmetadata plus
the optional waveform. Durations are modelled as naturals. -/
structure AudioMetadataV where
  duration : Option Nat := none
  waveformData : Option WaveformData := none
deriving DecidableEq, Repr

/-- FileMetadata stored in the context: video metadata (duration and
dimensions, from extractingVideoMetadata) or audio metadata (from
extractingAudioMetadata). -/
inductive FileMetadataV where
  | video (duration : Nat) (dimensions : Dimensions)
  | audio (m : AudioMetadataV)
deriving DecidableEq, Repr

/-- A binary blob (the video screenshot from canvas.toBlob). -/
structure BlobV where
  tag : Nat
deriving DecidableEq, Repr

/-- Vendor upload result record (opaque identifiers and URLs). -/
structure VendorUploadV where
  tag : Nat
deriving DecidableEq, Repr

/-- Sanity (content store) registration result record. -/
structure SanityUploadV where
  tag : Nat
deriving DecidableEq, Repr

/-- A vendor error as far as the machine reads it: its message. -/
structure ErrV where
  message : String
deriving DecidableEq, Repr

/-- The error field stored in the context on failure:
\x7berror?, title?, subtitle?\x7d in the source Context interface. -/
structure UploadError where
  error : Option ErrV := none
  title : Option String := none
  subtitle : Option String := none
deriving DecidableEq, Repr

/-- The machine Context from uploadMachine.ts. -/
structure Context where
  retries : Nat
  vendorUploadProgress : Nat
  file : Option FileV := none
  fileMetadata : Option FileMetadataV := none
  vendorUpload : Option VendorUploadV := none
  sanityUpload : Option SanityUploadV := none
  videoScreenshot : Option BlobV := none
  audioWaveform : Option WaveformData := none
  error : Option UploadError := none
deriving DecidableEq, Repr

/-- INITIAL_CONTEXT from uploadMachine.ts: retries 0, vendorUploadProgress 0,
every optional field absent. -/
def INITIAL_CONTEXT : Context :=
  { retries := 0, vendorUploadProgress := 0 }

/-- The machine states of the upload workflow. -/
inductive UState where
  | idle
  | extractingVideoMetadata
  | extractingAudioMetadata
  | uploadingToVendor
  | uploadingToSanity
  | success
  | failure
deriving DecidableEq, Repr

/-- Events processed by the machine: the UploadEvent union of the source,
plus the completion events of the invoked services (onDone / onError of
ExtractVideoMetadata, ExtractAudioMetadata and SanityUpload). -/
inductive Event where
  | SELECT_FILE (file : Option FileV)
  | RETRY
  | RESET_UPLOAD
  | CANCEL_INPUT
  | VENDOR_ERROR (error : ErrV)
  | VENDOR_PROGRESS (data : Nat)
  | VENDOR_DONE (data : VendorUploadV)
  | SANITY_DONE (data : SanityUploadV)
  | doneExtractVideo (screenshot : Option BlobV) (metadata : FileMetadataV)
  | errorExtractVideo
  | doneExtractAudio (metadata : AudioMetadataV)
  | errorExtractAudio
  | doneSanity (data : SanityUploadV)
  | errorSanity (error : ErrV)
deriving DecidableEq, Repr

/-- Side effects a transition requests besides updating the configuration.
The only named action of the machine is the invalidFileToast raised when a
selected file has an unsupported MIME type. -/
inductive Effect where
  | invalidFileToast
deriving DecidableEq, Repr

/-- Services invoked on entering a state (the invoke blocks of the source). -/
inductive ServiceId where
  | extractVideoMetadataSvc
  | extractAudioMetadataSvc
  | firebaseUpload
  | sanityUploadSvc
deriving DecidableEq, Repr

/-- Which service each state invokes on entry. -/
def invokedService : UState → Option ServiceId
  | UState.extractingVideoMetadata => some ServiceId.extractVideoMetadataSvc
  | UState.extractingAudioMetadata => some ServiceId.extractAudioMetadataSvc
  | UState.uploadingToVendor => some ServiceId.firebaseUpload
  | UState.uploadingToSanity => some ServiceId.sanityUploadSvc
  | _ => none

/-- Guard hasUploadedToVendor from the machine options. -/
def hasUploadedToVendor (c : Context) : Bool :=
  c.vendorUpload.isSome

/-- Guard canRetry from the machine options: defined in the source but not
referenced by any transition. -/
def canRetry (c : Context) : Bool :=
  c.retries ≤ 3

/-- State test used by the SELECT_FILE guards:
a list of idle and failure, with some of state.matches over it. -/
def isIdleOrFailure (s : UState) : Bool :=
  [UState.idle, UState.failure].any fun t => s = t

/-- Optional chaining event.file?.type?.includes(pat) of the SELECT_FILE
guards: false when no file is attached to the event. -/
def fileTypeIncludes (file : Option FileV) (pat : String) : Bool :=
  match file with
  | some f => strIncludes f.type pat
  | none => false

/-- Build the error record assigned on entering failure: the causing error
is retained together with a title and subtitle. -/
def mkUploadError (cause : ErrV) (title subtitle : String) : UploadError :=
  { error := some cause, title := some title, subtitle := some subtitle }

/-- Subtitle chosen by uploadingToVendor VENDOR_ERROR. -/
def vendorErrorSubtitle (c : Context) (e : ErrV) : String :=
  if c.retries > 1 then
    "Make sure the right credentials are set in the plugins\x27 settings."
  else
    e.message

/-- Subtitle chosen by uploadingToSanity onError. -/
def sanityErrorSubtitle (c : Context) : String :=
  if c.retries > 0 then
    "Try again in a few minutes, and if this still doesn\x27t work reach a developer for help."
  else
    "This is probably due to a network error, please try again."

/-- Machine root level handlers (the top level on block): CANCEL_INPUT
targets idle from any state; SELECT_FILE picks the first of its three
candidates whose cond passes (video extraction, audio extraction, else the
invalidFileToast action with no target). -/
def rootTransition (s : UState) (c : Context) (e : Event) :
    UState × Context × List Effect :=
  match e with
  | Event.CANCEL_INPUT => (UState.idle, c, [])
  | Event.SELECT_FILE file =>
      if isIdleOrFailure s && fileTypeIncludes file "video" then
        (UState.extractingVideoMetadata, { c with file := file }, [])
      else if isIdleOrFailure s && fileTypeIncludes file "audio" then
        (UState.extractingAudioMetadata, { c with file := file }, [])
      else
        (s, c, [Effect.invalidFileToast])
  | _ => (s, c, [])

/-- One step of the upload machine: the transition selected for event e in
state s with context c, returning the next state, the next context and the
requested effects. Translated arm by arm from the states block of
uploadMachine.ts; events a state does not handle fall through to
rootTransition, which also returns the unchanged configuration for events
nobody handles (including SANITY_DONE, declared but never consumed). -/
def transition (s : UState) (c : Context) (e : Event) :
    UState × Context × List Effect :=
  match s, e with
  | UState.extractingVideoMetadata, Event.doneExtractVideo shot meta =>
      (UState.uploadingToVendor,
        { c with videoScreenshot := shot, fileMetadata := some meta }, [])
  | UState.extractingVideoMetadata, Event.errorExtractVideo =>
      (UState.uploadingToVendor, c, [])
  | UState.extractingAudioMetadata, Event.doneExtractAudio meta =>
      (UState.uploadingToVendor,
        { c with fileMetadata := some (FileMetadataV.audio meta) }, [])
  | UState.extractingAudioMetadata, Event.errorExtractAudio =>
      (UState.uploadingToVendor, c, [])
  | UState.uploadingToVendor, Event.VENDOR_PROGRESS d =>
      (UState.uploadingToVendor, { c with vendorUploadProgress := d }, [])
  | UState.uploadingToVendor, Event.VENDOR_DONE d =>
      (UState.uploadingToSanity, { c with vendorUpload := some d }, [])
  | UState.uploadingToVendor, Event.VENDOR_ERROR err =>
      (UState.failure,
        { c with error := some (mkUploadError err "Failed to upload" (vendorErrorSubtitle c err)) }, [])
  | UState.uploadingToSanity, Event.doneSanity d =>
      (UState.success, { c with sanityUpload := some d }, [])
  | UState.uploadingToSanity, Event.errorSanity err =>
      (UState.failure,
        { c with error := some (mkUploadError err "Failed to save to library" (sanityErrorSubtitle c)) }, [])
  | UState.success, Event.RESET_UPLOAD =>
      (UState.idle,
        { c with retries := INITIAL_CONTEXT.retries,
                 vendorUploadProgress := INITIAL_CONTEXT.vendorUploadProgress }, [])
  | UState.failure, Event.RETRY =>
      if hasUploadedToVendor c then
        (UState.uploadingToSanity, { c with retries := c.retries + 1 }, [])
      else
        (UState.uploadingToVendor, { c with retries := c.retries + 1 }, [])
  | _, _ => rootTransition s c e

/-- One step on a configuration pair, dropping the effects. -/
def stepRun (p : UState × Context) (e : Event) : UState × Context :=
  let r := transition p.1 p.2 e
  (r.1, r.2.1)

/-- Run the machine from its initial configuration over a list of events. -/
def runMachine (events : List Event) : UState × Context :=
  events.foldl stepRun (UState.idle, INITIAL_CONTEXT)

example : (runMachine [Event.SELECT_FILE (some ⟨"video/mp4"⟩)]).1 =
    UState.extractingVideoMetadata := by decide

example :
    (runMachine [Event.SELECT_FILE (some ⟨"video/mp4"⟩), Event.errorExtractVideo,
      Event.VENDOR_ERROR ⟨"boom"⟩, Event.RETRY]).1 = UState.uploadingToVendor := by decide

/-- Resolve payload of the audio extraction step. -/
structure AudioExtractResult where
  metadata : AudioMetadataV
deriving DecidableEq, Repr

/-- The extractingAudioMetadata invoked service of uploadMachine.ts. The two
environmental inputs are explicit parameters: durationLoaded is the duration
read by the loadedmetadata listener before resolution (none when the listener
has not fired yet), waveform the outcome of getWaveformData on the file.
The promise rejects (error) exactly when no file is attached or its MIME
type does not contain audio; a waveform failure is caught and the step still
resolves with the metadata gathered so far. -/
def extractAudioMetadata (file : Option FileV) (durationLoaded : Option Nat)
    (waveform : Except ErrV WaveformData) : Except Unit AudioExtractResult :=
  match file with
  | none => Except.error ()
  | some f =>
      if strIncludes f.type "audio" then
        let metadata : AudioMetadataV := { duration := durationLoaded }
        match waveform with
        | Except.ok w => Except.ok { metadata := { metadata with waveformData := some w } }
        | Except.error _ => Except.ok { metadata := metadata }
      else
        Except.error ()

/-- Round a rational to the nearest integer, ties to even: the integer
rounding IEEE-754 round-to-nearest-even performs after scaling by the unit
in the last place. -/
def roundHalfEven (q : ℚ) : ℤ :=
  if Int.fract q < 1/2 then ⌊q⌋
  else if 1/2 < Int.fract q then ⌊q⌋ + 1
  else if ⌊q⌋ % 2 = 0 then ⌊q⌋ else ⌊q⌋ + 1

/-- Exponent of the binary64 unit in the last place at magnitude u: the
spacing of doubles around u is 2 to this power, 52 bits below the leading
binade and clamped at the subnormal spacing 2 to the -1074. -/
def ulpExp (u : ℚ) : ℤ :=
  max (Int.log 2 u - 52) (-1074)

/-- Round a nonnegative rational to the nearest IEEE-754 binary64 value,
round to nearest with ties to even. Overflow to infinity is not modelled:
every value this file rounds lies far below the overflow threshold. -/
def fl (u : ℚ) : ℚ :=
  if u = 0 then 0 else (roundHalfEven (u / 2 ^ ulpExp u) : ℚ) * 2 ^ ulpExp u

/-- Progress percentage reported to updateProgress by the Firebase adapter
uploadFile on each state_changed snapshot, as the source computes it:
the JavaScript expression Math.ceil((bytesTransferred / totalBytes) * 100)
evaluated in IEEE-754 binary64 arithmetic — the division and the
multiplication each round to nearest (ties to even), and Math.ceil on the
resulting double is exact. The embedding is exact for operand values up to
2 to the 53, below which the conversion of the byte counts to doubles is
itself exact. -/
def jsUploadProgress (bytesTransferred totalBytes : Nat) : ℤ :=
  ⌈fl (fl ((bytesTransferred : ℚ) / (totalBytes : ℚ)) * 100)⌉

/-- Stated from the claim wording of C8: the exact rational ceiling of
bytesTransferred over totalBytes times 100, written over the naturals. This
is the idealisation the claim asserts the adapter reports; jsUploadProgress
is what the code computes, and the two differ (see
upload_progress_float_cex). -/
def exactCeilProgress (bytesTransferred totalBytes : Nat) : Nat :=
  (bytesTransferred * 100 + (totalBytes - 1)) / totalBytes

/-- A Firebase storage error as far as deleteFile reads it: its optional
code string. -/
structure FbError where
  code : Option String
deriving DecidableEq, Repr

/-- deleteFile of packages/firebase/src/config.ts: outcome models the result
of the firebase storage ref delete call. The adapter resolves true on
success, resolves true as well on the storage/object-not-found error code,
and resolves with the string Error on every other failure. -/
def deleteFile (outcome : Except FbError Unit) : Bool ⊕ String :=
  match outcome with
  | Except.ok _ => Sum.inl true
  | Except.error e =>
      if e.code = some "storage/object-not-found" then Sum.inl true
      else Sum.inr "Error"

/-- JSON body fields read by the credential-issuance endpoint. -/
structure ParsedBody where
  contentType : Option String := none
  fileName : Option String := none
  secret : Option String := none
deriving DecidableEq, Repr

/-- The configured secret of getSignedUrl.example.js. -/
def SECRET : String := "SECRET_CODE"

/-- JavaScript String.prototype.toUpperCase restricted to ASCII, as applied
to the http method name. -/
def jsToUpper (s : String) : String :=
  String.mk (s.data.map Char.toUpper)

/-- The body string the endpoint actually parses: event.body with the
or-default of an empty object literal, so an absent or empty (falsy) body
becomes the two character string \x7b\x7d before JSON.parse ever runs. -/
def effectiveBody (body : Option String) : String :=
  match body with
  | none => "\x7b\x7d"
  | some s => if s = "" then "\x7b\x7d" else s

/-- The handler of packages/aws/getSignedUrl.example.js. parse stands for
the platform JSON.parse specialised to the fields the endpoint reads (none
models a parse exception); s3ok models the outcome of the
s3.createPresignedPost callback. Returns the http status code of the
response: 200 for OPTIONS preflight, 400 when JSON.parse throws on the
effective body, 401 when the parsed secret differs from the configured one,
otherwise 500 or 200 according to the presigned-post outcome. -/
def handler (parse : String → Option ParsedBody) (s3ok : Bool)
    (method : Option String) (body : Option String) : Nat :=
  if method.map jsToUpper = some "OPTIONS" then 200
  else
    match parse (effectiveBody body) with
    | none => 400
    | some b =>
        if b.secret ≠ some SECRET then 401
        else if s3ok then 200 else 500

/-- A concrete instance of the platform JSON parser, fixing the behavior of
JSON.parse on the concrete strings used in closed runs: the empty object
literal parses to an object with no fields; the empty string (on which
JSON.parse throws) and the other sample strings used below are not
parseable JSON. -/
def jsonParseAt : String → Option ParsedBody
  | "\x7b\x7d" => some {}
  | _ => none

example :
    extractAudioMetadata (some ⟨"audio/mp3"⟩) (some 12) (Except.error ⟨"wf"⟩) =
      Except.ok { metadata := { duration := some 12 } } := rfl

example : handler jsonParseAt true (some "options") none = 200 := by decide

example : handler jsonParseAt true (some "POST") (some "") = 401 := by decide

example : handler jsonParseAt true (some "POST") (some "zzz") = 400 := by decide

example : exactCeilProgress 1 3 = 34 := by decide

example : exactCeilProgress 7 100 = 7 := by decide

example : deleteFile (Except.error ⟨some "storage/object-not-found"⟩) = Sum.inl true := by decide

/-- Stated from the claim wording of C2: a MIME type string matches the
accept pattern video/* (resp audio/*) when its type component is the given
top level type, that is when it starts with that top level type followed by
a slash. Used only to state C2, which contrasts it with the substring test
the code performs. -/
def mimeMatchesGlob (t : String) (top : String) : Bool :=
  (top ++ "/").data.isPrefixOf t.data

/-- Claim C1: in the failure state, RETRY targets uploadingToSanity exactly
when vendorUpload is present and uploadingToVendor exactly when it is
absent (so the Firebase upload service is re-invoked only in the latter
case), and in both cases the new context is the old one with retries
incremented by exactly 1 and every other field unchanged, with no
effects. -/
theorem retry_transition_spec (c : Context) :
    ((transition UState.failure c Event.RETRY).1 = UState.uploadingToSanity ↔
      c.vendorUpload.isSome = true) ∧
    ((transition UState.failure c Event.RETRY).1 = UState.uploadingToVendor ↔
      c.vendorUpload = none) ∧
    (invokedService (transition UState.failure c Event.RETRY).1 =
      some ServiceId.firebaseUpload ↔ c.vendorUpload = none) ∧
    (transition UState.failure c Event.RETRY).2.1 = { c with retries := c.retries + 1 } ∧
    (transition UState.failure c Event.RETRY).2.2 = [] := by
  cases hv : c.vendorUpload <;>
    simp [transition, hasUploadedToVendor, hv, invokedService]

/-- Witness for retry_transition_spec at a context with vendorUpload
present. -/
theorem retry_transition_spec_witness :
    ((transition UState.failure { INITIAL_CONTEXT with vendorUpload := some ⟨7⟩ }
        Event.RETRY).1 = UState.uploadingToSanity ↔
      ({ INITIAL_CONTEXT with vendorUpload := some ⟨7⟩ } : Context).vendorUpload.isSome = true) ∧
    ((transition UState.failure { INITIAL_CONTEXT with vendorUpload := some ⟨7⟩ }
        Event.RETRY).1 = UState.uploadingToVendor ↔
      ({ INITIAL_CONTEXT with vendorUpload := some ⟨7⟩ } : Context).vendorUpload = none) ∧
    (invokedService (transition UState.failure
        { INITIAL_CONTEXT with vendorUpload := some ⟨7⟩ } Event.RETRY).1 =
      some ServiceId.firebaseUpload ↔
      ({ INITIAL_CONTEXT with vendorUpload := some ⟨7⟩ } : Context).vendorUpload = none) ∧
    (transition UState.failure { INITIAL_CONTEXT with vendorUpload := some ⟨7⟩ }
        Event.RETRY).2.1 =
      { ({ INITIAL_CONTEXT with vendorUpload := some ⟨7⟩ } : Context) with
          retries := ({ INITIAL_CONTEXT with vendorUpload := some ⟨7⟩ } : Context).retries + 1 } ∧
    (transition UState.failure { INITIAL_CONTEXT with vendorUpload := some ⟨7⟩ }
        Event.RETRY).2.2 = [] :=
  retry_transition_spec { INITIAL_CONTEXT with vendorUpload := some ⟨7⟩ }

/-- Counterexample to claim C2 as stated: the MIME type application/x-video
matches neither video/* nor audio/*, yet selecting such a file from idle is
accepted (the guard tests substring containment, not an accept glob): the
machine state changes to extractingVideoMetadata and the context changes by
storing the file, with no rejection notice. -/
theorem select_file_mime_glob_cex :
    mimeMatchesGlob "application/x-video" "video" = false ∧
    mimeMatchesGlob "application/x-video" "audio" = false ∧
    (transition UState.idle INITIAL_CONTEXT
        (Event.SELECT_FILE (some ⟨"application/x-video"⟩))).1 =
      UState.extractingVideoMetadata ∧
    (transition UState.idle INITIAL_CONTEXT
        (Event.SELECT_FILE (some ⟨"application/x-video"⟩))).2.1 ≠ INITIAL_CONTEXT ∧
    (transition UState.idle INITIAL_CONTEXT
        (Event.SELECT_FILE (some ⟨"application/x-video"⟩))).2.2 = [] := by
  decide

/-- Claim C2 amended: for every file whose MIME type contains neither the
substring video nor the substring audio, SELECT_FILE dispatched in idle or
failure leaves the state and the entire context unchanged and raises the
invalid-file toast. -/
theorem select_file_rejected_spec (s : UState) (c : Context) (f : FileV)
    (hs : s = UState.idle ∨ s = UState.failure)
    (hv : strIncludes f.type "video" = false)
    (ha : strIncludes f.type "audio" = false) :
    transition s c (Event.SELECT_FILE (some f)) = (s, c, [Effect.invalidFileToast]) := by
  rcases hs with h | h <;> subst h <;>
    simp [transition, rootTransition, isIdleOrFailure, fileTypeIncludes, hv, ha]

/-- Witness for select_file_rejected_spec: an image file selected from
idle. -/
theorem select_file_rejected_spec_witness :
    transition UState.idle INITIAL_CONTEXT (Event.SELECT_FILE (some ⟨"image/png"⟩)) =
      (UState.idle, INITIAL_CONTEXT, [Effect.invalidFileToast]) :=
  select_file_rejected_spec UState.idle INITIAL_CONTEXT ⟨"image/png"⟩ (Or.inl rfl)
    (by decide) (by decide)

/-- Counterexample to claim C3 as stated: after selecting video/mp4,
failing extraction (best effort, the workflow proceeds), failing the vendor
upload and retrying, the machine is in uploadingToVendor, a reachable state
other than failure, while the error recorded on the failed attempt is still
present in the context. -/
theorem error_outside_failure_cex :
    (runMachine [Event.SELECT_FILE (some ⟨"video/mp4"⟩), Event.errorExtractVideo,
        Event.VENDOR_ERROR ⟨"boom"⟩, Event.RETRY]).1 = UState.uploadingToVendor ∧
    ((runMachine [Event.SELECT_FILE (some ⟨"video/mp4"⟩), Event.errorExtractVideo,
        Event.VENDOR_ERROR ⟨"boom"⟩, Event.RETRY]).2).error.isSome = true := by
  decide

/-- Claim C3 amended: the error field is written when entering failure, but
the transitions that leave failure (RETRY, CANCEL_INPUT, and SELECT_FILE
whether accepted or rejected) leave it untouched, so a stale error persists
into states other than failure until the next failure overwrites it. -/
theorem leaving_failure_keeps_error (c : Context) (f : Option FileV) :
    ((transition UState.failure c Event.RETRY).2.1).error = c.error ∧
    ((transition UState.failure c Event.CANCEL_INPUT).2.1).error = c.error ∧
    ((transition UState.failure c (Event.SELECT_FILE f)).2.1).error = c.error := by
  refine ⟨?_, rfl, ?_⟩
  · by_cases hv : hasUploadedToVendor c <;> simp [transition, hv]
  · show (rootTransition UState.failure c (Event.SELECT_FILE f)).2.1.error = c.error
    unfold rootTransition
    split <;> first | rfl | (split <;> first | rfl | (split <;> rfl))

/-- Counterexample to claim C4 as stated: an audio upload fails at the
vendor, one retry fails again, then a video file is selected from failure;
the selection is accepted (the machine moves to extractingVideoMetadata)
but retries stays at 1 instead of being reset to 0. -/
theorem select_file_keeps_retries_cex :
    (runMachine [Event.SELECT_FILE (some ⟨"audio/mp3"⟩), Event.errorExtractAudio,
        Event.VENDOR_ERROR ⟨"boom"⟩, Event.RETRY, Event.VENDOR_ERROR ⟨"boom"⟩,
        Event.SELECT_FILE (some ⟨"video/mp4"⟩)]).1 = UState.extractingVideoMetadata ∧
    ((runMachine [Event.SELECT_FILE (some ⟨"audio/mp3"⟩), Event.errorExtractAudio,
        Event.VENDOR_ERROR ⟨"boom"⟩, Event.RETRY, Event.VENDOR_ERROR ⟨"boom"⟩,
        Event.SELECT_FILE (some ⟨"video/mp4"⟩)]).2).retries = 1 := by
  decide

/-- Claim C4 amended: a SELECT_FILE event never changes retries, whether
accepted or rejected, in any state: the accepted transitions only store the
file, so retries keeps its prior value; it is reset to 0 only by
RESET_UPLOAD from success. -/
theorem select_file_keeps_retries (s : UState) (c : Context) (f : Option FileV) :
    ((transition s c (Event.SELECT_FILE f)).2.1).retries = c.retries := by
  have h : ∀ s' : UState,
      ((rootTransition s' c (Event.SELECT_FILE f)).2.1).retries = c.retries := by
    intro s'
    unfold rootTransition
    split <;> first | rfl | (split <;> first | rfl | (split <;> rfl))
  cases s <;> exact h _

/-- Event trace of a complete successful audio upload followed by a reset:
select audio/mp3, extraction resolves with a duration, the vendor upload
completes, the Sanity registration completes, then RESET_UPLOAD is
dispatched from success. -/
def resetUploadTrace : List Event :=
  [Event.SELECT_FILE (some ⟨"audio/mp3"⟩),
   Event.doneExtractAudio { duration := some 12 },
   Event.VENDOR_DONE ⟨7⟩, Event.doneSanity ⟨9⟩, Event.RESET_UPLOAD]

/-- Claim C5, evaluated at the failing input: after a complete successful
upload, RESET_UPLOAD from success does return to idle and does reset
retries and vendorUploadProgress, but the assign merge keeps the stale
file, vendorUpload and sanityUpload, so the context is not restored to
INITIAL_CONTEXT and the optional fields are not absent. -/
theorem reset_upload_keeps_stale_fields :
    (runMachine resetUploadTrace).1 = UState.idle ∧
    (runMachine resetUploadTrace).2.retries = 0 ∧
    (runMachine resetUploadTrace).2.vendorUploadProgress = 0 ∧
    (runMachine resetUploadTrace).2.file = some ⟨"audio/mp3"⟩ ∧
    (runMachine resetUploadTrace).2.vendorUpload = some ⟨7⟩ ∧
    (runMachine resetUploadTrace).2.sanityUpload = some ⟨9⟩ ∧
    (runMachine resetUploadTrace).2 ≠ INITIAL_CONTEXT := by
  decide

/-- Claim C6: VENDOR_ERROR in uploadingToVendor enters failure, retaining
the vendor error as cause, with title Failed to upload, and with subtitle
the credentials hint when retries is strictly greater than 1 and the raw
vendor error message otherwise; the rest of the context is unchanged. -/
theorem vendor_error_spec (c : Context) (err : ErrV) :
    transition UState.uploadingToVendor c (Event.VENDOR_ERROR err) =
      (UState.failure,
        { c with error := some (mkUploadError err "Failed to upload"
            (if c.retries > 1 then "Make sure the right credentials are set in the plugins\x27 settings." else err.message)) },
        []) :=
  rfl

/-- Claim C7: the audio extraction step rejects exactly when no file is
present or the MIME type does not indicate audio; on any audio file whose
waveform computation throws, it still resolves with the metadata gathered
so far and no waveform; and the machine moves from extractingAudioMetadata
to uploadingToVendor on the resolution event, storing the metadata. -/
theorem extract_audio_spec (file : Option FileV) (d : Option Nat)
    (w : Except ErrV WaveformData) (c : Context) (m : AudioMetadataV) :
    (extractAudioMetadata file d w = Except.error () ↔
      file = none ∨ ∃ f, file = some f ∧ strIncludes f.type "audio" = false) ∧
    (∀ f, file = some f → strIncludes f.type "audio" = true →
      ∀ e, w = Except.error e →
        extractAudioMetadata file d w =
          Except.ok { metadata := { duration := d, waveformData := none } }) ∧
    transition UState.extractingAudioMetadata c (Event.doneExtractAudio m) =
      (UState.uploadingToVendor, { c with fileMetadata := some (FileMetadataV.audio m) }, []) := by
  refine ⟨?_, ?_, rfl⟩
  · cases file with
    | none => simp [extractAudioMetadata]
    | some f =>
        cases h : strIncludes f.type "audio" <;> cases w <;>
          simp [extractAudioMetadata, h]
  · rintro f rfl hf e rfl
    simp [extractAudioMetadata, hf]

/-- Witness for extract_audio_spec: an mp3 audio file whose waveform
computation throws still resolves with its duration. -/
theorem extract_audio_spec_witness :
    extractAudioMetadata (some ⟨"audio/mp3"⟩) (some 12) (Except.error ⟨"waveform failed"⟩) =
      Except.ok { metadata := { duration := some 12, waveformData := none } } :=
  (extract_audio_spec (some ⟨"audio/mp3"⟩) (some 12) (Except.error ⟨"waveform failed"⟩)
      INITIAL_CONTEXT { duration := some 12 }).2.1 ⟨"audio/mp3"⟩ rfl (by decide)
    ⟨"waveform failed"⟩ rfl

/-- Pin the base two logarithm of a positive rational from the enclosing
binade. -/
lemma int_log2_eq {u : ℚ} (hu : 0 < u) (e : ℤ) (h1 : (2:ℚ)^e ≤ u)
    (h2 : u < (2:ℚ)^(e+1)) : Int.log 2 u = e := by
  have hle : e ≤ Int.log 2 u := by
    rw [← Int.zpow_le_iff_le_log one_lt_two hu]
    exact_mod_cast h1
  have hlt : Int.log 2 u < e + 1 := by
    rw [← Int.lt_zpow_iff_log_lt one_lt_two hu]
    exact_mod_cast h2
  omega

/-- Rounding to nearest keeps nonnegative values nonnegative. -/
lemma roundHalfEven_nonneg {q : ℚ} (hq : 0 ≤ q) : 0 ≤ roundHalfEven q := by
  have h0 : (0:ℤ) ≤ ⌊q⌋ := Int.floor_nonneg.mpr hq
  unfold roundHalfEven
  split_ifs <;> omega

/-- Rounding to nearest cannot cross an integer bound from below: the
rounded value of q ≤ N is at most N. -/
lemma roundHalfEven_le_int {q : ℚ} {N : ℤ} (h : q ≤ N) : roundHalfEven q ≤ N := by
  have hfl : ⌊q⌋ ≤ N := by
    have h1 := Int.floor_mono h
    rwa [Int.floor_intCast] at h1
  have hup : Int.fract q ≠ 0 → ⌊q⌋ + 1 ≤ N := by
    intro hf
    rcases eq_or_lt_of_le hfl with hEq | hlt
    · exfalso
      apply hf
      have h2 : Int.fract q = q - ⌊q⌋ := (Int.self_sub_floor q).symm
      have h3 : (⌊q⌋ : ℚ) = (N : ℚ) := by exact_mod_cast hEq
      have h4 := Int.fract_nonneg q
      rw [h2, h3] at *
      linarith [h2, h4]
    · omega
  unfold roundHalfEven
  split_ifs with h1 h2 h3
  · exact hfl
  · exact hup (by linarith : (0:ℚ) < Int.fract q).ne'
  · exact hfl
  · have hge : (1:ℚ)/2 ≤ Int.fract q := not_lt.mp h1
    exact hup (by linarith : (0:ℚ) < Int.fract q).ne'

/-- Binary64 rounding keeps nonnegative values nonnegative. -/
lemma fl_nonneg {u : ℚ} (hu : 0 ≤ u) : 0 ≤ fl u := by
  unfold fl
  split_ifs with h
  · exact le_refl 0
  · have hpow : (0:ℚ) < 2 ^ ulpExp u := zpow_pos (by norm_num) _
    have hq : 0 ≤ u / 2 ^ ulpExp u := div_nonneg hu hpow.le
    have hR : (0:ℚ) ≤ (roundHalfEven (u / 2 ^ ulpExp u) : ℚ) := by
      exact_mod_cast roundHalfEven_nonneg hq
    exact mul_nonneg hR hpow.le

/-- Binary64 rounding cannot cross a bound c from below when c sits on the
rounding grid of u, witnessed by the integer N with N = c over the ulp. -/
lemma fl_le_of_le {u c : ℚ} (hu : 0 < u) (huc : u ≤ c) {N : ℤ}
    (hN : (N : ℚ) = c / 2 ^ ulpExp u) : fl u ≤ c := by
  unfold fl
  rw [if_neg hu.ne']
  have hpow : (0:ℚ) < 2 ^ ulpExp u := zpow_pos (by norm_num) _
  have hq : u / 2 ^ ulpExp u ≤ (N : ℚ) := by
    rw [hN]
    gcongr
  have hR : (roundHalfEven (u / 2 ^ ulpExp u) : ℚ) ≤ (N : ℚ) := by
    exact_mod_cast roundHalfEven_le_int hq
  calc (roundHalfEven (u / 2 ^ ulpExp u) : ℚ) * 2 ^ ulpExp u
      ≤ (N : ℚ) * 2 ^ ulpExp u := mul_le_mul_of_nonneg_right hR hpow.le
    _ = c := by rw [hN, div_mul_cancel₀ _ hpow.ne']

/-- Below one, the double spacing is at most 2 to the -52. -/
lemma ulpExp_le_of_le_one {u : ℚ} (hu : 0 < u) (h1 : u ≤ 1) : ulpExp u ≤ -52 := by
  have hlog : Int.log 2 u ≤ 0 := by
    have hm := Int.log_mono_right (b := 2) hu h1
    rwa [Int.log_one_right] at hm
  unfold ulpExp
  omega

/-- At or below one hundred, the double spacing is at most 2 to the -46. -/
lemma ulpExp_le_of_le_hundred {u : ℚ} (hu : 0 < u) (h1 : u ≤ 100) :
    ulpExp u ≤ -46 := by
  have hlog : Int.log 2 u ≤ 6 := by
    by_contra h
    push_neg at h
    have h7 : (2:ℚ)^(7:ℤ) ≤ (2:ℚ)^(Int.log 2 u) := by
      apply zpow_le_zpow_right₀ (by norm_num) (by omega)
    have hself : ((2:ℕ):ℚ)^(Int.log 2 u) ≤ u := Int.zpow_log_le_self one_lt_two hu
    have h128 : (128:ℚ) ≤ u := by
      calc (128:ℚ) = (2:ℚ)^(7:ℤ) := by norm_num
        _ ≤ (2:ℚ)^(Int.log 2 u) := h7
        _ ≤ u := by exact_mod_cast hself
    linarith
  unfold ulpExp
  omega

/-- One over a nonpositive power of two is an integer. -/
lemma one_div_zpow_int {k : ℤ} (hk : k ≤ 0) :
    ((2 ^ (-k).toNat : ℤ) : ℚ) = 1 / 2 ^ k := by
  push_cast
  rw [← zpow_natCast (2:ℚ) (-k).toNat, Int.toNat_of_nonneg (by omega), zpow_neg, one_div]

/-- One hundred over a nonpositive power of two is an integer. -/
lemma hundred_div_zpow_int {k : ℤ} (hk : k ≤ 0) :
    ((100 * 2 ^ (-k).toNat : ℤ) : ℚ) = 100 / 2 ^ k := by
  push_cast
  rw [← zpow_natCast (2:ℚ) (-k).toNat, Int.toNat_of_nonneg (by omega), zpow_neg]
  rw [div_eq_mul_inv]

/-- Binary64 rounding of a value of at most one is at most one: one is
exactly representable. -/
lemma fl_le_one {u : ℚ} (hu0 : 0 ≤ u) (h1 : u ≤ 1) : fl u ≤ 1 := by
  rcases eq_or_lt_of_le hu0 with h | h
  · rw [← h]
    unfold fl
    norm_num
  · exact fl_le_of_le h h1 (one_div_zpow_int (by linarith [ulpExp_le_of_le_one h h1]))

/-- Binary64 rounding of a value of at most one hundred is at most one
hundred: one hundred is exactly representable. -/
lemma fl_le_hundred {v : ℚ} (hv0 : 0 ≤ v) (h1 : v ≤ 100) : fl v ≤ 100 := by
  rcases eq_or_lt_of_le hv0 with h | h
  · rw [← h]
    unfold fl
    norm_num
  · exact fl_le_of_le h h1
      (hundred_div_zpow_int (by linarith [ulpExp_le_of_le_hundred h h1]))

/-- Counterexample to claim C8 as stated, at bytesTransferred 7 of
totalBytes 100 (inside the claim domain 0 ≤ b ≤ t, t positive): in the
binary64 arithmetic the source uses, 7 / 100 rounds up to
5044031582654956 times 2 to the -56, the multiplication by 100 rounds up
again to 7881299347898369 times 2 to the -50, a value strictly above 7, so
Math.ceil returns 8 — while the exact ceiling of 7/100 times 100 the claim
asserts is 7. -/
theorem upload_progress_float_cex :
    (7 ≤ 100 ∧ 0 < 100 ∧ (100:ℕ) ≤ 2 ^ 53) ∧
    jsUploadProgress 7 100 = 8 ∧ exactCeilProgress 7 100 = 7 := by
  refine ⟨⟨by decide, by decide, by decide⟩, ?_, by decide⟩
  have hu : (0:ℚ) < 7/100 := by norm_num
  have hlog1 : Int.log 2 ((7:ℚ)/100) = -4 :=
    int_log2_eq hu (-4) (by norm_num) (by norm_num)
  have hk1 : ulpExp ((7:ℚ)/100) = -56 := by
    unfold ulpExp
    rw [hlog1]
    decide
  have hq1 : ((7:ℚ)/100) / 2^(-56:ℤ) = 504403158265495552/100 := by
    rw [zpow_neg, div_inv_eq_mul]
    norm_num
  have hfl1 : ⌊((7:ℚ)/100) / 2^(-56:ℤ)⌋ = 5044031582654955 := by
    rw [hq1, Int.floor_eq_iff]
    constructor <;> norm_num
  have hfr1 : (1:ℚ)/2 < Int.fract (((7:ℚ)/100) / 2^(-56:ℤ)) := by
    rw [← Int.self_sub_floor, hfl1, hq1]
    norm_num
  have hR1 : roundHalfEven (((7:ℚ)/100) / 2^(-56:ℤ)) = 5044031582654956 := by
    unfold roundHalfEven
    rw [if_neg (not_lt.mpr hfr1.le), if_pos hfr1, hfl1]
    norm_num
  have hx1 : fl ((7:ℚ)/100) = 5044031582654956 * 2^(-56:ℤ) := by
    unfold fl
    rw [if_neg hu.ne', hk1, hR1]
    norm_num
  have hv0 : (0:ℚ) < 504403158265495600 * 2^(-56:ℤ) := by positivity
  have hlog2 : Int.log 2 ((504403158265495600:ℚ) * 2^(-56:ℤ)) = 2 := by
    apply int_log2_eq hv0 2 <;>
      rw [zpow_neg, show ((2:ℚ)^(56:ℤ)) = 72057594037927936 from by norm_num] <;>
      norm_num
  have hk2 : ulpExp ((504403158265495600:ℚ) * 2^(-56:ℤ)) = -50 := by
    unfold ulpExp
    rw [hlog2]
    decide
  have hq2 : ((504403158265495600:ℚ) * 2^(-56:ℤ)) / 2^(-50:ℤ) = 31525197391593475/4 := by
    rw [zpow_neg, zpow_neg, div_inv_eq_mul,
      show ((2:ℚ)^(56:ℤ)) = 72057594037927936 from by norm_num,
      show ((2:ℚ)^(50:ℤ)) = 1125899906842624 from by norm_num]
    norm_num
  have hfl2 : ⌊((504403158265495600:ℚ) * 2^(-56:ℤ)) / 2^(-50:ℤ)⌋ = 7881299347898368 := by
    rw [hq2, Int.floor_eq_iff]
    constructor <;> norm_num
  have hfr2 : (1:ℚ)/2 < Int.fract (((504403158265495600:ℚ) * 2^(-56:ℤ)) / 2^(-50:ℤ)) := by
    rw [← Int.self_sub_floor, hfl2, hq2]
    norm_num
  have hR2 : roundHalfEven (((504403158265495600:ℚ) * 2^(-56:ℤ)) / 2^(-50:ℤ)) =
      7881299347898369 := by
    unfold roundHalfEven
    rw [if_neg (not_lt.mpr hfr2.le), if_pos hfr2, hfl2]
    norm_num
  have hx2 : fl ((504403158265495600:ℚ) * 2^(-56:ℤ)) = 7881299347898369 * 2^(-50:ℤ) := by
    unfold fl
    rw [if_neg hv0.ne', hk2, hR2]
    norm_num
  unfold jsUploadProgress
  push_cast
  rw [hx1, show (5044031582654956:ℚ) * 2^(-56:ℤ) * 100 =
    504403158265495600 * 2^(-56:ℤ) from by ring, hx2]
  rw [zpow_neg, show ((2:ℚ)^(50:ℤ)) = 1125899906842624 from by norm_num, Int.ceil_eq_iff]
  constructor <;> norm_num

/-- Claim C8 amended: for 0 ≤ bytesTransferred ≤ totalBytes with totalBytes
positive (and at most 2 to the 53, the domain on which the byte counts
convert to doubles exactly, so the embedding is exact), the progress the
adapter reports — Math.ceil over the binary64 evaluation of
bytesTransferred / totalBytes * 100 — is an integer between 0 and 100
inclusive; by upload_progress_float_cex it can exceed the exact rational
ceiling, so the range holds but the parenthetical exact-ceiling
computation rule does not. -/
theorem js_upload_progress_bounds (b t : Nat) (hbt : b ≤ t) (ht : 0 < t)
    (_ht53 : t ≤ 2 ^ 53) :
    0 ≤ jsUploadProgress b t ∧ jsUploadProgress b t ≤ 100 := by
  have htq : (0:ℚ) < (t:ℚ) := by exact_mod_cast ht
  have hu0 : 0 ≤ (b:ℚ) / (t:ℚ) := div_nonneg (by positivity) htq.le
  have hu1 : (b:ℚ) / (t:ℚ) ≤ 1 := by
    rw [div_le_one htq]
    exact_mod_cast hbt
  have hx0 : 0 ≤ fl ((b:ℚ)/(t:ℚ)) := fl_nonneg hu0
  have hx1 : fl ((b:ℚ)/(t:ℚ)) ≤ 1 := fl_le_one hu0 hu1
  have hv0 : 0 ≤ fl ((b:ℚ)/(t:ℚ)) * 100 := mul_nonneg hx0 (by norm_num)
  have hv1 : fl ((b:ℚ)/(t:ℚ)) * 100 ≤ 100 := by nlinarith
  have hfv0 : 0 ≤ fl (fl ((b:ℚ)/(t:ℚ)) * 100) := fl_nonneg hv0
  have hfv1 : fl (fl ((b:ℚ)/(t:ℚ)) * 100) ≤ 100 := fl_le_hundred hv0 hv1
  unfold jsUploadProgress
  constructor
  · exact Int.ceil_nonneg hfv0
  · rw [Int.ceil_le]
    exact_mod_cast hfv1

/-- Witness for js_upload_progress_bounds at 1 byte of 3 transferred. -/
theorem js_upload_progress_bounds_witness :
    ((1:ℕ) ≤ 3 ∧ 0 < 3 ∧ (3:ℕ) ≤ 2 ^ 53) ∧
    (0 ≤ jsUploadProgress 1 3 ∧ jsUploadProgress 1 3 ≤ 100) :=
  ⟨⟨by decide, by decide, by decide⟩,
    js_upload_progress_bounds 1 3 (by decide) (by decide) (by decide)⟩

/-- Counterexample to claim C9 as stated: a POST whose body is the empty
string, which is not parseable JSON (JSON.parse throws on it), is answered
401 rather than 400: the endpoint replaces a falsy body with the empty
object literal before parsing, so the parse failure branch is never reached
for empty bodies. -/
theorem handler_empty_body_cex :
    jsonParseAt "" = none ∧
    handler jsonParseAt true (some "POST") (some "") = 401 := by
  decide

/-- Claim C9 amended: OPTIONS requests (method compared case insensitively)
get 200 whatever the body, secret or presigned-post outcome; a non OPTIONS
request with a present, non empty body on which the JSON parse fails gets
400; a non OPTIONS request whose effective body (absent and empty bodies
are replaced by the empty object literal) parses to an object whose secret
differs from the configured one gets 401. -/
theorem handler_responses_spec (parse : String → Option ParsedBody) (s3ok : Bool)
    (method : Option String) (body : Option String) (s : String) (b : ParsedBody) :
    (method.map jsToUpper = some "OPTIONS" → handler parse s3ok method body = 200) ∧
    (method.map jsToUpper ≠ some "OPTIONS" → body = some s → s ≠ "" →
      parse s = none → handler parse s3ok method body = 400) ∧
    (method.map jsToUpper ≠ some "OPTIONS" →
      parse (effectiveBody body) = some b → b.secret ≠ some SECRET →
      handler parse s3ok method body = 401) := by
  refine ⟨fun h => by simp [handler, h], ?_, ?_⟩
  · rintro h rfl hs hp
    simp [handler, h, effectiveBody, hs, hp]
  · intro h hp hsec
    simp [handler, h, hp, hsec]

/-- Witness for handler_responses_spec: a lowercase options preflight gets
200, an unparseable nonempty body gets 400, an absent body (parsed as an
empty object whose secret is missing) gets 401. -/
theorem handler_responses_spec_witness :
    handler jsonParseAt true (some "options") (some "anything") = 200 ∧
    handler jsonParseAt true (some "POST") (some "not json") = 400 ∧
    handler jsonParseAt true (some "POST") none = 401 := by
  refine ⟨?_, ?_, ?_⟩
  · exact (handler_responses_spec jsonParseAt true (some "options") (some "anything")
      "x" {}).1 (by decide)
  · exact (handler_responses_spec jsonParseAt true (some "POST") (some "not json")
      "not json" {}).2.1 (by decide) rfl (by decide) (by decide)
  · exact (handler_responses_spec jsonParseAt true (some "POST") none
      "x" {}).2.2 (by decide) (by decide) (by decide)

/-- Claim C10: deleteFile resolves true exactly when the vendor delete call
succeeds or fails with the storage/object-not-found code (deleting an
already absent file counts as success), and resolves with the string Error
on every other failure. -/
theorem delete_file_spec (outcome : Except FbError Unit) :
    (deleteFile outcome = Sum.inl true ↔
      outcome = Except.ok () ∨
        ∃ e, outcome = Except.error e ∧ e.code = some "storage/object-not-found") ∧
    (∀ e, outcome = Except.error e → e.code ≠ some "storage/object-not-found" →
      deleteFile outcome = Sum.inr "Error") := by
  constructor
  · cases outcome with
    | ok u => cases u; simp [deleteFile]
    | error e =>
        by_cases h : e.code = some "storage/object-not-found" <;>
          simp [deleteFile, h]
  · rintro e rfl h
    simp [deleteFile, h]

/-- Witness for delete_file_spec: a permission error resolves with the
string Error. -/
theorem delete_file_spec_witness :
    deleteFile (Except.error ⟨some "storage/unauthorized"⟩) = Sum.inr "Error" :=
  (delete_file_spec (Except.error ⟨some "storage/unauthorized"⟩)).2
    ⟨some "storage/unauthorized"⟩ rfl (by decide)
